import Mathlib

/-!
Verification of the user-lists service of `api.openSauced`.

The repository snapshot contains one source file,
`src/user-lists/user-list.controller.ts` (the `UserListController`).  The
service layer (`UserListService`), the DTO classes and the pagination
envelope are consumed by the controller but are absent from the snapshot;
those parts are modelled from the specification (each such definition says
so in its doc comment).  Database-generated uuid strings are modelled as
opaque numeric identifiers; route paths keep their literal string segments.
-/

namespace OpenSauced

/-- A user list record (`DbUserList`): `{id, owner_id, name, is_public, created_at}`. -/
structure DbUserList where
  id : Nat
  owner_id : Nat
  name : String
  is_public : Bool
  created_at : Nat
  deriving Repr, DecidableEq

/-- A list/contributor relationship (`DbUserListContributor`):
`{id, list_id, contributor_id, created_at}`. -/
structure DbUserListContributor where
  id : Nat
  list_id : Nat
  contributor_id : Nat
  created_at : Nat
  deriving Repr, DecidableEq

/-- The backing persistent store: list records, contributor relationships, the
set of existing identities (user ids), the id generators, and a clock used for
`created_at` stamps. -/
structure Store where
  lists : List DbUserList
  contribs : List DbUserListContributor
  users : List Nat
  nextListId : Nat
  nextContribId : Nat
  now : Nat
  deriving Repr, DecidableEq

/-- The documented failure shapes: NotFound and BadRequest (§7). -/
inductive ApiError where
  | notFound
  | badRequest
  deriving Repr, DecidableEq

/-- Body of `POST /lists` and `PATCH /lists/:id` (`CreateUserListDto`):
`{name, is_public, contributors[]}`. -/
structure CreateUserListDto where
  name : String
  is_public : Bool
  contributors : List Nat
  deriving Repr, DecidableEq

/-- Body of `POST /lists/:id/contributors` (`CollaboratorsDto`): `{contributors: id[]}`. -/
structure CollaboratorsDto where
  contributors : List Nat
  deriving Repr, DecidableEq

/-- Pagination options (`PageOptionsDto`): 1-based page and a positive limit (§4.3). -/
structure PageOptionsDto where
  page : Nat
  limit : Nat
  deriving Repr, DecidableEq

/-- Page envelope (`PageDto`): item sequence of the requested page, total item
count across all pages, current page number, total page count (§4.3). -/
structure PageDto (α : Type) where
  data : List α
  itemCount : Nat
  page : Nat
  pageCount : Nat
  deriving Repr, DecidableEq

/-- Modelled from the spec: the shared pagination contract (§4.3).  The
`UserListService` pagination code is not in the snapshot.  The envelope carries
the items of the requested 1-based page, the total item count, the current page
and `ceil(total/limit)` pages. -/
def paginate {α : Type} (items : List α) (opts : PageOptionsDto) : PageDto α :=
  { data := (items.drop ((opts.page - 1) * opts.limit)).take opts.limit
    itemCount := items.length
    page := opts.page
    pageCount := (items.length + opts.limit - 1) / opts.limit }

/-- Modelled from the spec: `UserListService.findOneById` is the owned lookup
(`getOneOwned`, §4.1): it fails with NotFound unless the caller is the owner —
a non-owned list is indistinguishable from a missing one. -/
def findOneById (listId : Nat) (userId : Nat) (s : Store) : Except ApiError DbUserList :=
  match s.lists.find? (fun l => l.id == listId) with
  | none => .error .notFound
  | some l => if l.owner_id == userId then .ok l else .error .notFound

/-- Modelled from the spec: `UserListService.findPublicOneById` is `getOne`
(§4.1): the list if it is public or owned by the caller, NotFound otherwise. -/
def findPublicOneById (listId : Nat) (userId : Nat) (s : Store) : Except ApiError DbUserList :=
  match s.lists.find? (fun l => l.id == listId) with
  | none => .error .notFound
  | some l => if l.is_public || l.owner_id == userId then .ok l else .error .notFound

/-- Modelled from the spec: `UserListService.addUserList` creates a List owned
by the caller (§4.1 `create`), with a fresh store-generated id. -/
def addUserList (userId : Nat) (dto : CreateUserListDto) (s : Store) : DbUserList × Store :=
  let l : DbUserList :=
    { id := s.nextListId, owner_id := userId, name := dto.name
      is_public := dto.is_public, created_at := s.now }
  (l, { s with lists := s.lists ++ [l], nextListId := s.nextListId + 1 })

/-- Modelled from the spec: `UserListService.addUserListContributor` is `add`
(§4.2): inserts a new relationship with a fresh id, without deduplication; an
invalid contributor id fails (BadRequest). -/
def addUserListContributor (listId : Nat) (contributorId : Nat) (s : Store) :
    Except ApiError (DbUserListContributor × Store) :=
  if s.users.contains contributorId then
    let r : DbUserListContributor :=
      { id := s.nextContribId, list_id := listId, contributor_id := contributorId
        created_at := s.now }
    .ok (r, { s with contribs := s.contribs ++ [r], nextContribId := s.nextContribId + 1 })
  else
    .error .badRequest

/-- Modelled from the spec: `UserListService.updateUserList` applies a partial
field update of `name` and `is_public` to the stored record (§4.1 `update`). -/
def updateUserList (listId : Nat) (name : String) (isPublic : Bool) (s : Store) : Store :=
  { s with lists := s.lists.map (fun l =>
      if l.id == listId then { l with name := name, is_public := isPublic } else l) }

/-- Modelled from the spec: `UserListService.deleteUserList` removes the List
and cascades removal of its contributor relationships (§4.1 `delete`, §3). -/
def deleteUserList (listId : Nat) (s : Store) : Store :=
  { s with lists := s.lists.filter (fun l => l.id != listId)
           contribs := s.contribs.filter (fun r => r.list_id != listId) }

/-- Modelled from the spec: `UserListService.deleteUserListContributor` is
`remove` (§4.2): deletes one relationship by its own identifier scoped to the
given list; NotFound if no such relationship exists under that list. -/
def deleteUserListContributor (listId : Nat) (relId : Nat) (s : Store) : Except ApiError Store :=
  if s.contribs.any (fun r => r.id == relId && r.list_id == listId) then
    .ok { s with contribs := s.contribs.filter (fun r => !(r.id == relId && r.list_id == listId)) }
  else
    .error .notFound

/-- Modelled from the spec: `UserListService.findAllByUserId` returns the
caller-owned lists, paginated (§4.1 `listForUser`). -/
def findAllByUserId (opts : PageOptionsDto) (userId : Nat) (s : Store) : PageDto DbUserList :=
  paginate (s.lists.filter (fun l => l.owner_id == userId)) opts

/-- Modelled from the spec: `UserListService.findContributorsByListId` returns
the contributor relationships of one list, paginated (§4.2). -/
def findContributorsByListId (opts : PageOptionsDto) (listId : Nat) (s : Store) :
    PageDto DbUserListContributor :=
  paginate (s.contribs.filter (fun r => r.list_id == listId)) opts

/-- Modelled from the spec: `UserListService.findContributorsByFilter` is the
global paginated query over contributor identities (§4.2); the filter options
beyond pagination are not needed by the claims, so the identity set is taken
whole. -/
def findContributorsByFilter (opts : PageOptionsDto) (s : Store) : PageDto Nat :=
  paginate s.users opts

/-- Sequentialisation of the controller's `updateCollaboratorsDto.contributors.map
(async ... addUserListContributor ...)`: every add attempt is issued (a rejection
does not stop the sibling attempts that were already started), each outcome is
recorded in order, and the store reflects every successful write. -/
def runAdds (listId : Nat) (ids : List Nat) (s : Store) :
    List (Except ApiError DbUserListContributor) × Store :=
  match ids with
  | [] => ([], s)
  | cid :: rest =>
    match addUserListContributor listId cid s with
    | .ok (r, s') =>
      (.ok r :: (runAdds listId rest s').1, (runAdds listId rest s').2)
    | .error e =>
      (.error e :: (runAdds listId rest s).1, (runAdds listId rest s).2)

/-- `Promise.all` over settled outcomes: the list of values when every outcome
succeeded, otherwise the first failure. -/
def collectAll {α : Type} : List (Except ApiError α) → Except ApiError (List α)
  | [] => .ok []
  | .ok a :: rest => (collectAll rest).map (fun l => a :: l)
  | .error e :: _ => .error e

/-- `GET /lists` — `getListsForUser`: lists owned by the authenticated user. -/
def getListsForUser (userId : Nat) (opts : PageOptionsDto) (s : Store) : PageDto DbUserList :=
  findAllByUserId opts userId s

/-- `POST /lists` — `addListForUser`: creates the list, then issues one add per
requested contributor and waits for all to settle (`Promise.allSettled`),
discarding the outcomes; returns the new list. -/
def addListForUser (dto : CreateUserListDto) (userId : Nat) (s : Store) : DbUserList × Store :=
  ((addUserList userId dto s).1,
    (runAdds (addUserList userId dto s).1.id dto.contributors (addUserList userId dto s).2).2)

/-- `GET /lists/:id` — `getUserList`: delegates to `findPublicOneById`. -/
def getUserList (id : Nat) (userId : Nat) (s : Store) : Except ApiError DbUserList :=
  findPublicOneById id userId s

/-- `PATCH /lists/:id` — `updateListForUser`: resolves the list via the owned
lookup, writes `{name, is_public}`, and returns the record re-read from the
store after the write. -/
def updateListForUser (dto : CreateUserListDto) (userId : Nat) (listId : Nat) (s : Store) :
    Except ApiError (DbUserList × Store) :=
  match findOneById listId userId s with
  | .error e => .error e
  | .ok list =>
    match findOneById list.id userId (updateUserList list.id dto.name dto.is_public s) with
    | .error e => .error e
    | .ok refreshed => .ok (refreshed, updateUserList list.id dto.name dto.is_public s)

/-- `DELETE /lists/:id` — `deleteListForUser`: resolves the list via the owned
lookup, then deletes it. -/
def deleteListForUser (userId : Nat) (listId : Nat) (s : Store) : Except ApiError Store :=
  match findOneById listId userId s with
  | .error e => .error e
  | .ok list => .ok (deleteUserList list.id s)

/-- `GET /lists/contributors` — `getContributors`. -/
def getContributors (opts : PageOptionsDto) (s : Store) : PageDto Nat :=
  findContributorsByFilter opts s

/-- `GET /lists/:id/contributors` — `getUserListContributors`. -/
def getUserListContributors (opts : PageOptionsDto) (id : Nat) (s : Store) :
    PageDto DbUserListContributor :=
  findContributorsByListId opts id s

/-- `POST /lists/:id/contributors` — `postUserListContributors`: issues one add
per contributor id and `Promise.all`s the outcomes.  The handler receives no
caller identity and performs no list lookup.  The first component is the HTTP
result; the second is the store, which keeps every write that succeeded. -/
def postUserListContributors (dto : CollaboratorsDto) (id : Nat) (s : Store) :
    Except ApiError (List DbUserListContributor) × Store :=
  (collectAll (runAdds id dto.contributors s).1, (runAdds id dto.contributors s).2)

/-- `DELETE /lists/:id/contributors/:userListContributorId` —
`deleteUserListContributors`: delegates directly to the service; no caller
identity, no list lookup. -/
def deleteUserListContributors (id : Nat) (relId : Nat) (s : Store) : Except ApiError Store :=
  deleteUserListContributor id relId s

/-! ### Route dispatch

The controller's routes in declaration order, and Express-style first-match
dispatch over them (NestJS registers handlers in declaration order). -/

/-- HTTP methods used by the controller. -/
inductive Method where
  | get
  | post
  | patch
  | delete
  deriving Repr, DecidableEq

/-- A path segment pattern: a literal segment or a named parameter. -/
inductive Seg where
  | lit (s : String)
  | param (s : String)
  deriving Repr, DecidableEq

/-- The controller's handler methods. -/
inductive Handler where
  | getListsForUser
  | addListForUser
  | getUserList
  | updateListForUser
  | deleteListForUser
  | getContributors
  | getUserListContributors
  | postUserListContributors
  | deleteUserListContributor
  deriving Repr, DecidableEq

/-- The routes of `UserListController` (paths relative to the `lists`
controller root), in the order they are declared in the source file. -/
def routes : List (Method × List Seg × Handler) :=
  [ (.get, [], .getListsForUser),
    (.post, [], .addListForUser),
    (.get, [.param "id"], .getUserList),
    (.patch, [.param "id"], .updateListForUser),
    (.delete, [.param "id"], .deleteListForUser),
    (.get, [.lit "contributors"], .getContributors),
    (.get, [.param "id", .lit "contributors"], .getUserListContributors),
    (.post, [.param "id", .lit "contributors"], .postUserListContributors),
    (.delete, [.param "id", .lit "contributors", .param "userListContributorId"],
      .deleteUserListContributor) ]

/-- Match one route pattern against concrete path segments, producing the
parameter bindings on success. -/
def matchSegs : List Seg → List String → Option (List (String × String))
  | [], [] => some []
  | .lit t :: ps, x :: xs => if t == x then matchSegs ps xs else none
  | .param n :: ps, x :: xs => (matchSegs ps xs).map (fun bs => (n, x) :: bs)
  | _, _ => none

/-- First-match dispatch over the declared routes. -/
def dispatch (m : Method) (path : List String) : Option (Handler × List (String × String)) :=
  routes.findSome? (fun r =>
    if r.1 == m then (matchSegs r.2.1 path).map (fun bs => (r.2.2, bs)) else none)

/-! ### A concrete store used by the concrete theorems

One private list with id 100 owned by user 7, two existing identities 1 and 2,
no contributor relationships yet. -/

/-- Concrete store: a single private list (id 100, owner 7), identities 1, 2. -/
def s1 : Store :=
  { lists := [{ id := 100, owner_id := 7, name := "mine", is_public := false, created_at := 0 }]
    contribs := []
    users := [1, 2]
    nextListId := 101
    nextContribId := 0
    now := 3 }

/-! ### Mutating API operations as store transitions -/

/-- One mutating API request, with its parameters. -/
inductive Op where
  | addList (dto : CreateUserListDto) (userId : Nat)
  | updateList (dto : CreateUserListDto) (userId : Nat) (listId : Nat)
  | deleteList (userId : Nat) (listId : Nat)
  | addContribs (dto : CollaboratorsDto) (id : Nat)
  | removeContrib (id : Nat) (relId : Nat)
  deriving Repr, DecidableEq

/-- Effect of one mutating request on the store (a failed request leaves behind
whatever state its handler reached; for the endpoints other than the bulk add,
a failure happens before any write). -/
def applyOp (op : Op) (s : Store) : Store :=
  match op with
  | .addList dto userId => (addListForUser dto userId s).2
  | .updateList dto userId listId =>
    match updateListForUser dto userId listId s with
    | .ok (_, s') => s'
    | .error _ => s
  | .deleteList userId listId =>
    match deleteListForUser userId listId s with
    | .ok s' => s'
    | .error _ => s
  | .addContribs dto id => (postUserListContributors dto id s).2
  | .removeContrib id relId =>
    match deleteUserListContributors id relId s with
    | .ok s' => s'
    | .error _ => s

/-- Effect of a sequence of mutating requests. -/
def applySeq (ops : List Op) (s : Store) : Store :=
  ops.foldl (fun t op => applyOp op t) s

/-- The owner recorded for list id `i`, when such a list exists. -/
def ownerOf (s : Store) (i : Nat) : Option Nat :=
  (s.lists.find? (fun l => l.id == i)).map (fun l => l.owner_id)

/-- Store well-formedness: every stored list id is below the id generator, so a
fresh id never collides with an existing one (database-generated ids are
unique). -/
def WF (s : Store) : Prop :=
  ∀ l ∈ s.lists, l.id < s.nextListId

/-! ### Helper lemmas -/

lemma collectAll_map_ok {α : Type} (l : List α) : collectAll (l.map Except.ok) = .ok l := by
  induction l with
  | nil => rfl
  | cons a rest ih => simp [collectAll, Except.map, ih]

lemma collectAll_append_error {α : Type} (pre : List α) (e : ApiError)
    (rest : List (Except ApiError α)) :
    collectAll (pre.map Except.ok ++ .error e :: rest) = .error e := by
  induction pre with
  | nil => rfl
  | cons a pre ih => simp [collectAll, Except.map, ih]

lemma addUserListContributor_ok (listId cid : Nat) (s : Store) (r : DbUserListContributor)
    (s' : Store) (h : addUserListContributor listId cid s = .ok (r, s')) :
    s'.lists = s.lists ∧ s'.nextListId = s.nextListId ∧ s'.users = s.users ∧
      s'.contribs = s.contribs ++ [r] ∧ r ∈ s'.contribs ∧
      s'.contribs.length = s.contribs.length + 1 := by
  unfold addUserListContributor at h
  split at h
  · injection h with h
    injection h with h1 h2
    subst h2
    simp [← h1]
  · exact absurd h (by simp)

lemma runAdds_lists (listId : Nat) (ids : List Nat) (s : Store) :
    (runAdds listId ids s).2.lists = s.lists := by
  induction ids generalizing s with
  | nil => rfl
  | cons cid rest ih =>
    unfold runAdds
    cases hadd : addUserListContributor listId cid s with
    | ok p =>
      obtain ⟨hl, -, -, -, -, -⟩ := addUserListContributor_ok listId cid s p.1 p.2 (by rw [hadd])
      simpa [hl] using ih p.2
    | error e => simpa using ih s

lemma runAdds_nextListId (listId : Nat) (ids : List Nat) (s : Store) :
    (runAdds listId ids s).2.nextListId = s.nextListId := by
  induction ids generalizing s with
  | nil => rfl
  | cons cid rest ih =>
    unfold runAdds
    cases hadd : addUserListContributor listId cid s with
    | ok p =>
      obtain ⟨-, hn, -, -, -, -⟩ := addUserListContributor_ok listId cid s p.1 p.2 (by rw [hadd])
      simpa [hn] using ih p.2
    | error e => simpa using ih s

lemma runAdds_contribs_sublist (listId : Nat) (ids : List Nat) (s : Store) :
    s.contribs.Sublist (runAdds listId ids s).2.contribs := by
  induction ids generalizing s with
  | nil => exact List.Sublist.refl _
  | cons cid rest ih =>
    unfold runAdds
    cases hadd : addUserListContributor listId cid s with
    | ok p =>
      obtain ⟨-, -, -, hc, -, -⟩ := addUserListContributor_ok listId cid s p.1 p.2 (by rw [hadd])
      simp only []
      exact ((hc ▸ List.sublist_append_left s.contribs [p.1]).trans (ih p.2))
    | error e => simpa using ih s

lemma mem_contribs_of_runAdds_ok (listId : Nat) (ids : List Nat) (s : Store)
    (r : DbUserListContributor) (hr : Except.ok r ∈ (runAdds listId ids s).1) :
    r ∈ (runAdds listId ids s).2.contribs := by
  induction ids generalizing s with
  | nil => simp [runAdds] at hr
  | cons cid rest ih =>
    unfold runAdds at hr ⊢
    cases hadd : addUserListContributor listId cid s with
    | ok p =>
      rw [hadd] at hr
      simp only [List.mem_cons] at hr
      obtain ⟨-, -, -, hc, hmem, -⟩ :=
        addUserListContributor_ok listId cid s p.1 p.2 (by rw [hadd])
      rcases hr with hr | hr
      · have : p.1 ∈ p.2.contribs := hmem
        injection hr with hr
        exact (runAdds_contribs_sublist listId rest p.2).subset (hr ▸ this)
      · exact ih p.2 hr
    | error e =>
      rw [hadd] at hr
      simp only [List.mem_cons] at hr
      rcases hr with hr | hr
      · exact absurd hr (by simp)
      · exact ih s hr

lemma runAdds_contribs_length (listId : Nat) (ids : List Nat) (s : Store) :
    (runAdds listId ids s).2.contribs.length =
      s.contribs.length + (runAdds listId ids s).1.countP (fun x => x.isOk) := by
  induction ids generalizing s with
  | nil => rfl
  | cons cid rest ih =>
    unfold runAdds
    cases hadd : addUserListContributor listId cid s with
    | ok p =>
      obtain ⟨-, -, -, -, -, hlen⟩ :=
        addUserListContributor_ok listId cid s p.1 p.2 (by rw [hadd])
      simp only [List.countP_cons]
      rw [ih p.2, hlen]
      simp [Except.isOk, Except.toBool]
      omega
    | error e =>
      simp only [List.countP_cons]
      rw [ih s]
      simp [Except.isOk, Except.toBool]

lemma findOneById_ok (listId userId : Nat) (s : Store) (l : DbUserList)
    (h : findOneById listId userId s = .ok l) :
    s.lists.find? (fun x => x.id == listId) = some l ∧ l.owner_id = userId ∧ l.id = listId := by
  unfold findOneById at h
  split at h
  next hf => exact absurd h (by simp)
  next l' hf =>
    by_cases ho : l'.owner_id = userId
    · rw [if_pos (by simpa using ho)] at h
      injection h with h
      subst h
      exact ⟨hf, ho, by simpa using List.find?_some hf⟩
    · rw [if_neg (by simpa using ho)] at h
      exact absurd h (by simp)

lemma find?_updateUserList (listId : Nat) (n : String) (b : Bool) (s : Store) (old : DbUserList)
    (h : s.lists.find? (fun l => l.id == listId) = some old) :
    (updateUserList listId n b s).lists.find? (fun l => l.id == listId) =
      some { old with name := n, is_public := b } := by
  have hpf : (fun l : DbUserList => l.id == listId) ∘
      (fun l : DbUserList =>
        if l.id == listId then { l with name := n, is_public := b } else l) =
      fun l : DbUserList => l.id == listId := by
    funext l
    by_cases hl : l.id = listId
    · simp [hl]
    · simp [hl]
  have hold : (old.id == listId) = true := by simpa using List.find?_some h
  unfold updateUserList
  simp only [List.find?_map, hpf, h, Option.map_some']
  simp [hold]

lemma updateListForUser_ok (dto : CreateUserListDto) (userId listId : Nat) (s : Store)
    (res : DbUserList) (s' : Store)
    (h : updateListForUser dto userId listId s = .ok (res, s')) :
    ∃ old, findOneById listId userId s = .ok old ∧
      s' = updateUserList old.id dto.name dto.is_public s ∧
      findOneById old.id userId s' = .ok res := by
  unfold updateListForUser at h
  split at h
  next e h1 => exact absurd h (by simp)
  next old h1 =>
    split at h
    next e h2 => exact absurd h (by simp)
    next refreshed h2 =>
      injection h with h
      injection h with ha hb
      exact ⟨old, h1, hb.symm, hb ▸ ha ▸ h2⟩

lemma deleteListForUser_ok (userId listId : Nat) (s : Store) (s' : Store)
    (h : deleteListForUser userId listId s = .ok s') :
    ∃ l, findOneById listId userId s = .ok l ∧ s' = deleteUserList l.id s := by
  unfold deleteListForUser at h
  split at h
  next e h1 => exact absurd h (by simp)
  next l h1 =>
    injection h with h
    exact ⟨l, h1, h.symm⟩

lemma deleteUserListContributor_ok (listId relId : Nat) (s : Store) (s' : Store)
    (h : deleteUserListContributor listId relId s = .ok s') :
    s'.lists = s.lists ∧ s'.nextListId = s.nextListId := by
  unfold deleteUserListContributor at h
  split at h
  · injection h with h
    subst h
    exact ⟨rfl, rfl⟩
  · exact absurd h (by simp)

lemma updateUserList_lists (j : Nat) (n : String) (b : Bool) (s : Store) :
    (updateUserList j n b s).lists =
      s.lists.map (fun l => if l.id == j then { l with name := n, is_public := b } else l) := rfl

lemma updateUserList_nextListId (j : Nat) (n : String) (b : Bool) (s : Store) :
    (updateUserList j n b s).nextListId = s.nextListId := rfl

lemma deleteUserList_lists (j : Nat) (s : Store) :
    (deleteUserList j s).lists = s.lists.filter (fun l => l.id != j) := rfl

lemma deleteUserList_nextListId (j : Nat) (s : Store) :
    (deleteUserList j s).nextListId = s.nextListId := rfl

lemma addUserList_snd_lists (u : Nat) (dto : CreateUserListDto) (s : Store) :
    (addUserList u dto s).2.lists = s.lists ++ [(addUserList u dto s).1] := rfl

lemma addUserList_snd_nextListId (u : Nat) (dto : CreateUserListDto) (s : Store) :
    (addUserList u dto s).2.nextListId = s.nextListId + 1 := rfl

lemma addUserList_fst_id (u : Nat) (dto : CreateUserListDto) (s : Store) :
    (addUserList u dto s).1.id = s.nextListId := rfl

lemma ownerOf_eq_of_lists (s s' : Store) (i : Nat) (h : s'.lists = s.lists) :
    ownerOf s' i = ownerOf s i := by
  unfold ownerOf
  rw [h]

lemma WF_of_eq (s s' : Store) (hl : s'.lists = s.lists) (hn : s'.nextListId = s.nextListId)
    (h : WF s) : WF s' := by
  intro l hm
  rw [hn]
  exact h l (hl ▸ hm)

lemma ownerOf_updateUserList (j : Nat) (n : String) (b : Bool) (s : Store) (i : Nat) :
    ownerOf (updateUserList j n b s) i = ownerOf s i := by
  show ((s.lists.map fun l =>
      if l.id == j then { l with name := n, is_public := b } else l).find?
        (fun l => l.id == i)).map (fun l => l.owner_id) =
    (s.lists.find? (fun l => l.id == i)).map (fun l => l.owner_id)
  generalize s.lists = ls
  induction ls with
  | nil => rfl
  | cons l ls ih =>
    rw [List.map_cons]
    by_cases hj : l.id = j
    · rw [if_pos (by simp [hj])]
      by_cases hl : l.id = i
      · rw [@List.find?_cons_of_pos DbUserList (fun x => x.id == i)
            ({ l with name := n, is_public := b }) _ (by simp [hl]),
          @List.find?_cons_of_pos DbUserList (fun x => x.id == i) l _ (by simp [hl])]
        rfl
      · rw [@List.find?_cons_of_neg DbUserList (fun x => x.id == i)
            ({ l with name := n, is_public := b }) _ (by simp [hl]),
          @List.find?_cons_of_neg DbUserList (fun x => x.id == i) l _ (by simp [hl])]
        exact ih
    · rw [if_neg (by simp [hj])]
      by_cases hl : l.id = i
      · rw [@List.find?_cons_of_pos DbUserList (fun x => x.id == i) l _ (by simp [hl]),
          @List.find?_cons_of_pos DbUserList (fun x => x.id == i) l _ (by simp [hl])]
      · rw [@List.find?_cons_of_neg DbUserList (fun x => x.id == i) l _ (by simp [hl]),
          @List.find?_cons_of_neg DbUserList (fun x => x.id == i) l _ (by simp [hl])]
        exact ih

lemma WF_updateUserList (j : Nat) (n : String) (b : Bool) (s : Store) (h : WF s) :
    WF (updateUserList j n b s) := by
  intro l hl
  rw [updateUserList_lists] at hl
  rw [updateUserList_nextListId]
  obtain ⟨x, hx, hfx⟩ := List.mem_map.mp hl
  by_cases hj : x.id = j <;> (rw [← hfx]; simpa [hj] using h x hx)

lemma WF_deleteUserList (j : Nat) (s : Store) (h : WF s) : WF (deleteUserList j s) := by
  intro l hl
  rw [deleteUserList_lists] at hl
  rw [deleteUserList_nextListId]
  exact h l (List.mem_filter.mp hl).1

lemma ownerOf_deleteUserList (j : Nat) (s : Store) (i : Nat) :
    ownerOf (deleteUserList j s) i = ownerOf s i ∨ ownerOf (deleteUserList j s) i = none := by
  by_cases hij : i = j
  · right
    subst hij
    unfold ownerOf
    rw [deleteUserList_lists]
    have hnone : (s.lists.filter (fun l => l.id != i)).find? (fun l => l.id == i) = none := by
      rw [List.find?_eq_none]
      intro x hx
      have hne := (List.mem_filter.mp hx).2
      simp only [bne_iff_ne, ne_eq, decide_eq_true_eq] at hne
      simp [hne]
    rw [hnone]
    rfl
  · left
    unfold ownerOf
    rw [deleteUserList_lists, List.find?_filter]
    have hp : (fun a : DbUserList => decide ((a.id != j) = true ∧ (a.id == i) = true)) =
        (fun l : DbUserList => l.id == i) := by
      funext l
      by_cases hl : l.id = i
      · simp [hl, bne_iff_ne]
        exact hij
      · simp [hl]
    rw [hp]

lemma ownerOf_addUserList_of_some (u' : Nat) (dto : CreateUserListDto) (s : Store) (i u : Nat)
    (h : ownerOf s i = some u) : ownerOf (addUserList u' dto s).2 i = some u := by
  unfold ownerOf at h ⊢
  rw [addUserList_snd_lists, List.find?_append]
  cases hf : s.lists.find? (fun l => l.id == i) with
  | none => rw [hf] at h; simp at h
  | some l =>
    rw [hf] at h
    simpa [Option.or] using h

lemma ownerOf_addUserList_of_none (u' : Nat) (dto : CreateUserListDto) (s : Store) (i : Nat)
    (hi : i < s.nextListId) (h : ownerOf s i = none) :
    ownerOf (addUserList u' dto s).2 i = none := by
  unfold ownerOf at h ⊢
  rw [addUserList_snd_lists, List.find?_append]
  cases hf : s.lists.find? (fun l => l.id == i) with
  | some l => rw [hf] at h; simp at h
  | none =>
    have hnew : ((addUserList u' dto s).1.id == i) = false := by
      rw [addUserList_fst_id]
      simp
      omega
    simp [Option.or, List.find?_cons, hnew]

lemma WF_addUserList (u' : Nat) (dto : CreateUserListDto) (s : Store) (h : WF s) :
    WF (addUserList u' dto s).2 := by
  intro l hl
  rw [addUserList_snd_lists] at hl
  rw [addUserList_snd_nextListId]
  rcases List.mem_append.mp hl with hm | hm
  · exact Nat.lt_succ_of_lt (h l hm)
  · have : l = (addUserList u' dto s).1 := by simpa using hm
    rw [this, addUserList_fst_id]
    exact Nat.lt_succ_self _

lemma applyOp_inv (op : Op) (t : Store) (i u : Nat)
    (hwf : WF t) (hi : i < t.nextListId)
    (h : ownerOf t i = some u ∨ ownerOf t i = none) :
    WF (applyOp op t) ∧ t.nextListId ≤ (applyOp op t).nextListId ∧
      (ownerOf (applyOp op t) i = some u ∨ ownerOf (applyOp op t) i = none) := by
  cases op with
  | addList dto userId =>
    have ha : applyOp (Op.addList dto userId) t = (addListForUser dto userId t).2 := rfl
    have hlists : (addListForUser dto userId t).2.lists = (addUserList userId dto t).2.lists :=
      runAdds_lists _ _ _
    have hnext : (addListForUser dto userId t).2.nextListId =
        (addUserList userId dto t).2.nextListId := runAdds_nextListId _ _ _
    rw [ha]
    refine ⟨?_, ?_, ?_⟩
    · exact WF_of_eq _ _ hlists hnext (WF_addUserList userId dto t hwf)
    · rw [hnext, addUserList_snd_nextListId]
      exact Nat.le_succ _
    · rw [ownerOf_eq_of_lists (addUserList userId dto t).2 _ i hlists]
      rcases h with h | h
      · exact Or.inl (ownerOf_addUserList_of_some userId dto t i u h)
      · exact Or.inr (ownerOf_addUserList_of_none userId dto t i hi h)
  | updateList dto userId listId =>
    cases hres : updateListForUser dto userId listId t with
    | error e =>
      have ha : applyOp (Op.updateList dto userId listId) t = t := by
        simp only [applyOp]
        rw [hres]
      rw [ha]
      exact ⟨hwf, Nat.le_refl _, h⟩
    | ok p =>
      obtain ⟨res, s'⟩ := p
      have ha : applyOp (Op.updateList dto userId listId) t = s' := by
        simp only [applyOp]
        rw [hres]
      obtain ⟨old, -, hs', -⟩ := updateListForUser_ok dto userId listId t res s' hres
      rw [ha, hs']
      exact ⟨WF_updateUserList _ _ _ _ hwf,
        Nat.le_of_eq (updateUserList_nextListId _ _ _ _).symm,
        by rw [ownerOf_updateUserList]; exact h⟩
  | deleteList userId listId =>
    cases hres : deleteListForUser userId listId t with
    | error e =>
      have ha : applyOp (Op.deleteList userId listId) t = t := by
        simp only [applyOp]
        rw [hres]
      rw [ha]
      exact ⟨hwf, Nat.le_refl _, h⟩
    | ok s' =>
      have ha : applyOp (Op.deleteList userId listId) t = s' := by
        simp only [applyOp]
        rw [hres]
      obtain ⟨l, -, hs'⟩ := deleteListForUser_ok userId listId t s' hres
      rw [ha, hs']
      refine ⟨WF_deleteUserList _ _ hwf,
        Nat.le_of_eq (deleteUserList_nextListId _ _).symm, ?_⟩
      rcases ownerOf_deleteUserList l.id t i with hd | hd
      · rw [hd]
        exact h
      · exact Or.inr hd
  | addContribs dto id =>
    have ha : applyOp (Op.addContribs dto id) t = (postUserListContributors dto id t).2 := rfl
    have hlists : (postUserListContributors dto id t).2.lists = t.lists := runAdds_lists _ _ _
    have hnext : (postUserListContributors dto id t).2.nextListId = t.nextListId :=
      runAdds_nextListId _ _ _
    rw [ha]
    exact ⟨WF_of_eq _ _ hlists hnext hwf, Nat.le_of_eq hnext.symm,
      by rw [ownerOf_eq_of_lists t _ i hlists]; exact h⟩
  | removeContrib id relId =>
    cases hres : deleteUserListContributors id relId t with
    | error e =>
      have ha : applyOp (Op.removeContrib id relId) t = t := by
        simp only [applyOp]
        rw [hres]
      rw [ha]
      exact ⟨hwf, Nat.le_refl _, h⟩
    | ok s' =>
      have ha : applyOp (Op.removeContrib id relId) t = s' := by
        simp only [applyOp]
        rw [hres]
      obtain ⟨hlists, hnext⟩ := deleteUserListContributor_ok id relId t s' hres
      rw [ha]
      exact ⟨WF_of_eq _ _ hlists hnext hwf, Nat.le_of_eq hnext.symm,
        by rw [ownerOf_eq_of_lists t _ i hlists]; exact h⟩

lemma applySeq_inv (ops : List Op) (t : Store) (i u : Nat)
    (hwf : WF t) (hi : i < t.nextListId)
    (h : ownerOf t i = some u ∨ ownerOf t i = none) :
    ownerOf (applySeq ops t) i = some u ∨ ownerOf (applySeq ops t) i = none := by
  induction ops generalizing t with
  | nil => exact h
  | cons op ops ih =>
    obtain ⟨hwf', hle, h'⟩ := applyOp_inv op t i u hwf hi h
    exact ih (applyOp op t) hwf' (Nat.lt_of_lt_of_le hi hle) h'

lemma ceil_bounds (n k : Nat) (hk : 0 < k) :
    n ≤ ((n + k - 1) / k) * k ∧ ((n + k - 1) / k) * k < n + k := by
  have h1 : ((n + k - 1) / k) * k ≤ n + k - 1 := Nat.div_mul_le_self _ _
  have h2 : n + k - 1 < k * ((n + k - 1) / k) + k :=
    calc n + k - 1 = k * ((n + k - 1) / k) + (n + k - 1) % k := (Nat.div_add_mod _ _).symm
      _ < k * ((n + k - 1) / k) + k := Nat.add_lt_add_left (Nat.mod_lt _ hk) _
  rw [mul_comm] at h2
  generalize ((n + k - 1) / k) * k = x at h1 h2 ⊢
  omega

lemma paginate_beyond_last {α : Type} (items : List α) (opts : PageOptionsDto)
    (hl : 0 < opts.limit) (h : (paginate items opts).pageCount < opts.page) :
    (paginate items opts).data = [] := by
  have hb : items.length ≤ (paginate items opts).pageCount * opts.limit :=
    (ceil_bounds items.length opts.limit hl).1
  have hp : (paginate items opts).pageCount ≤ opts.page - 1 := by omega
  have hlen : items.length ≤ (opts.page - 1) * opts.limit :=
    le_trans hb (Nat.mul_le_mul_right _ hp)
  show (items.drop ((opts.page - 1) * opts.limit)).take opts.limit = []
  rw [List.drop_eq_nil_of_le hlen]
  simp

/-! ### Claim theorems -/

/-- C1: the claim (and spec §4.1) requires every mutating path — including
contributor add/remove scoped to a list — to resolve the target list via the
owned lookup for the calling identity and fail with NotFound for a non-owner.
The contributor handlers in the controller receive no caller identity and never
perform the lookup: on a store whose only list (id 100) is private and owned by
user 7, the bulk contributor add and the contributor removal both succeed, for
every caller. -/
theorem contributor_mutation_requires_no_ownership :
    s1.lists = [⟨100, 7, "mine", false, 0⟩] ∧
    (postUserListContributors ⟨[1]⟩ 100 s1).1 = .ok [⟨0, 100, 1, 3⟩] ∧
    deleteUserListContributors 100 0 (postUserListContributors ⟨[1]⟩ 100 s1).2 =
      .ok { lists := [⟨100, 7, "mine", false, 0⟩], contribs := [], users := [1, 2],
            nextListId := 101, nextContribId := 1, now := 3 } :=
  ⟨rfl, rfl, rfl⟩

/-- C2: the bulk contributor add is all-or-nothing in its result: when every
per-contributor add succeeds it returns the sequence of created relationships,
and when some add fails it returns the first encountered failure, never a
partial-success payload. -/
theorem bulk_add_all_or_nothing (dto : CollaboratorsDto) (id : Nat) (s : Store) :
    (∀ l, (runAdds id dto.contributors s).1 = l.map Except.ok →
      (postUserListContributors dto id s).1 = .ok l) ∧
    (∀ (pre : List DbUserListContributor) (e : ApiError)
        (rest : List (Except ApiError DbUserListContributor)),
      (runAdds id dto.contributors s).1 = pre.map Except.ok ++ .error e :: rest →
      (postUserListContributors dto id s).1 = .error e) := by
  constructor
  · intro l hl
    show collectAll (runAdds id dto.contributors s).1 = .ok l
    rw [hl]
    exact collectAll_map_ok l
  · intro pre e rest hre
    show collectAll (runAdds id dto.contributors s).1 = .error e
    rw [hre]
    exact collectAll_append_error pre e rest

/-- Witness for C2 at concrete inputs: both contributors valid gives the full
relationship sequence; an invalid second contributor fails the whole request. -/
theorem bulk_add_all_or_nothing_witness :
    (postUserListContributors ⟨[1, 2]⟩ 100 s1).1 =
      .ok [⟨0, 100, 1, 3⟩, ⟨1, 100, 2, 3⟩] ∧
    (postUserListContributors ⟨[1, 999]⟩ 100 s1).1 = .error .badRequest :=
  ⟨(bulk_add_all_or_nothing ⟨[1, 2]⟩ 100 s1).1 [⟨0, 100, 1, 3⟩, ⟨1, 100, 2, 3⟩] (by rfl),
   (bulk_add_all_or_nothing ⟨[1, 999]⟩ 100 s1).2 [⟨0, 100, 1, 3⟩] .badRequest [] (by rfl)⟩

/-- C3: list creation returns the newly created list regardless of the outcome
of the per-contributor seeding adds: the returned value is exactly the record
made by `addUserList`, carries the caller as owner and the requested fields, and
is present in the resulting store; no contributor failure is surfaced (the
handler's result type carries no error at all). -/
theorem create_tolerates_contributor_failures (dto : CreateUserListDto) (userId : Nat)
    (s : Store) :
    (addListForUser dto userId s).1 = (addUserList userId dto s).1 ∧
    (addListForUser dto userId s).1.owner_id = userId ∧
    (addListForUser dto userId s).1.name = dto.name ∧
    (addListForUser dto userId s).1.is_public = dto.is_public ∧
    (addListForUser dto userId s).1 ∈ (addListForUser dto userId s).2.lists := by
  refine ⟨rfl, rfl, rfl, rfl, ?_⟩
  show (addUserList userId dto s).1 ∈
    (runAdds (addUserList userId dto s).1.id dto.contributors (addUserList userId dto s).2).2.lists
  rw [runAdds_lists, addUserList_snd_lists]
  exact List.mem_append_right _ (List.mem_singleton_self _)

/-- C4: because `GET /:id` is declared before `GET /contributors`, first-match
dispatch sends `GET /lists/contributors` to the `getUserList` handler with the
path parameter `id` bound to the literal string `contributors`; the
`getContributors` handler is not selected for that path. -/
theorem contributors_route_shadowed :
    dispatch .get ["contributors"] = some (.getUserList, [("id", "contributors")]) := rfl

/-- C5: when the bulk contributor add fails, the adds that succeeded remain
committed: each successfully created relationship is in the resulting store,
which is strictly larger than the store before the request — no compensating
rollback happens. -/
theorem failed_bulk_add_keeps_writes (dto : CollaboratorsDto) (id : Nat) (s : Store)
    (r : DbUserListContributor) (e : ApiError)
    (hr : Except.ok r ∈ (runAdds id dto.contributors s).1)
    (he : (postUserListContributors dto id s).1 = .error e) :
    r ∈ (postUserListContributors dto id s).2.contribs ∧
    s.contribs.length < (postUserListContributors dto id s).2.contribs.length := by
  refine ⟨mem_contribs_of_runAdds_ok id dto.contributors s r hr, ?_⟩
  have hcount : 0 < (runAdds id dto.contributors s).1.countP (fun x => x.isOk) := by
    rw [List.countP_pos_iff]
    exact ⟨Except.ok r, hr, by simp [Except.isOk, Except.toBool]⟩
  have hlen := runAdds_contribs_length id dto.contributors s
  show s.contribs.length < (runAdds id dto.contributors s).2.contribs.length
  omega

/-- Witness for C5: adding `[1, 999]` to the store `s1` fails as a whole (999 is
invalid), yet the relationship created for contributor 1 is committed. -/
theorem failed_bulk_add_keeps_writes_witness :
    (⟨0, 100, 1, 3⟩ : DbUserListContributor) ∈
      (postUserListContributors ⟨[1, 999]⟩ 100 s1).2.contribs ∧
    s1.contribs.length < (postUserListContributors ⟨[1, 999]⟩ 100 s1).2.contribs.length :=
  failed_bulk_add_keeps_writes ⟨[1, 999]⟩ 100 s1 ⟨0, 100, 1, 3⟩ .badRequest
    (List.mem_cons_self _ _) (by rfl)

/-- C6: a successful owner update applies the partial field update of `name`
and `is_public` and returns the record as re-read from the store after the
write: the result is the post-write stored record (same id, owner and creation
stamp as the pre-update record, with the two requested fields replaced). -/
theorem update_returns_refreshed_record (dto : CreateUserListDto) (userId listId : Nat)
    (s : Store) (res : DbUserList) (s' : Store)
    (h : updateListForUser dto userId listId s = .ok (res, s')) :
    res.name = dto.name ∧ res.is_public = dto.is_public ∧
    findOneById listId userId s' = .ok res ∧
    ∃ old, findOneById listId userId s = .ok old ∧
      res = { old with name := dto.name, is_public := dto.is_public } ∧
      s' = updateUserList listId dto.name dto.is_public s := by
  obtain ⟨old, h1, hs', h2⟩ := updateListForUser_ok dto userId listId s res s' h
  obtain ⟨hf, ho, hid⟩ := findOneById_ok listId userId s old h1
  subst hid
  have hfind := find?_updateUserList old.id dto.name dto.is_public s old hf
  have hres : findOneById old.id userId (updateUserList old.id dto.name dto.is_public s) =
      .ok { old with name := dto.name, is_public := dto.is_public } := by
    unfold findOneById
    rw [hfind]
    simp [ho]
  rw [hs'] at h2
  rw [hres] at h2
  injection h2 with h2
  subst h2
  exact ⟨rfl, rfl, by rw [hs']; exact hres, old, h1, rfl, hs'⟩

/-- Witness for C6: updating list 100 in `s1` as its owner 7 yields the re-read
record with the new name and visibility. -/
theorem update_returns_refreshed_record_witness :
    (⟨100, 7, "new", true, 0⟩ : DbUserList).name = "new" ∧
    (⟨100, 7, "new", true, 0⟩ : DbUserList).is_public = true ∧
    findOneById 100 7 (updateUserList 100 "new" true s1) = .ok ⟨100, 7, "new", true, 0⟩ ∧
    ∃ old, findOneById 100 7 s1 = .ok old ∧
      (⟨100, 7, "new", true, 0⟩ : DbUserList) = { old with name := "new", is_public := true } ∧
      updateUserList 100 "new" true s1 = updateUserList 100 "new" true s1 :=
  update_returns_refreshed_record ⟨"new", true, []⟩ 7 100 s1 ⟨100, 7, "new", true, 0⟩
    (updateUserList 100 "new" true s1) (by rfl)

/-- C7: the single-list retrieval returns the stored list exactly when it is
public or owned by the caller, and fails with NotFound otherwise — also when
the list exists but is private and not owned by the caller. -/
theorem getOne_public_or_owned (s : Store) (id userId : Nat) :
    (s.lists.find? (fun l => l.id == id) = none →
      getUserList id userId s = .error .notFound) ∧
    (∀ l, s.lists.find? (fun x => x.id == id) = some l →
      ((l.is_public = true ∨ l.owner_id = userId) → getUserList id userId s = .ok l) ∧
      (l.is_public = false → l.owner_id ≠ userId →
        getUserList id userId s = .error .notFound)) := by
  unfold getUserList findPublicOneById
  refine ⟨fun h => by rw [h], fun l hl => ⟨fun hv => ?_, fun hp ho => ?_⟩⟩
  · rw [hl]
    rcases hv with hv | hv
    · simp [hv]
    · simp [hv]
  · rw [hl]
    simp [hp, ho]

/-- Witness for C7: the private list 100 of `s1` is NotFound for caller 9 and
returned for its owner 7. -/
theorem getOne_public_or_owned_witness :
    getUserList 100 9 s1 = .error .notFound ∧
    getUserList 100 7 s1 = .ok ⟨100, 7, "mine", false, 0⟩ :=
  ⟨((getOne_public_or_owned s1 100 9).2 ⟨100, 7, "mine", false, 0⟩ rfl).2 rfl (by decide),
   ((getOne_public_or_owned s1 100 7).2 ⟨100, 7, "mine", false, 0⟩ rfl).1 (Or.inr rfl)⟩

/-- C8: every paginated query is the shared envelope of its item set, and the
envelope carries the 1-based requested page's slice, the total item count, the
current page and `ceil(total/limit)` pages; a page beyond the last yields an
empty item sequence; 15 items with `page = 2, limit = 10` yield 5 items and 2
pages. -/
theorem pagination_envelope (opts : PageOptionsDto) (userId listId : Nat) (s : Store)
    (hl : 0 < opts.limit) :
    findAllByUserId opts userId s =
      paginate (s.lists.filter (fun l => l.owner_id == userId)) opts ∧
    findContributorsByListId opts listId s =
      paginate (s.contribs.filter (fun r => r.list_id == listId)) opts ∧
    findContributorsByFilter opts s = paginate s.users opts ∧
    (∀ (α : Type) (items : List α),
      (paginate items opts).data =
        (items.drop ((opts.page - 1) * opts.limit)).take opts.limit ∧
      (paginate items opts).itemCount = items.length ∧
      (paginate items opts).page = opts.page ∧
      items.length ≤ (paginate items opts).pageCount * opts.limit ∧
      (paginate items opts).pageCount * opts.limit < items.length + opts.limit ∧
      ((paginate items opts).pageCount < opts.page → (paginate items opts).data = [])) ∧
    (paginate (List.range 15) ⟨2, 10⟩).data.length = 5 ∧
    (paginate (List.range 15) ⟨2, 10⟩).pageCount = 2 :=
  ⟨rfl, rfl, rfl, fun α items =>
    ⟨rfl, rfl, rfl, (ceil_bounds items.length opts.limit hl).1,
      (ceil_bounds items.length opts.limit hl).2,
      paginate_beyond_last items opts hl⟩, rfl, rfl⟩

/-- Witness for C8: the spec's concrete example, 15 items at page 2, limit 10. -/
theorem pagination_envelope_witness :
    (paginate (List.range 15) ⟨2, 10⟩).data.length = 5 ∧
    (paginate (List.range 15) ⟨2, 10⟩).pageCount = 2 :=
  (pagination_envelope ⟨2, 10⟩ 7 100 s1 (by decide)).2.2.2.2

/-- C9: the single contributor add is not idempotent: adding contributor 1 to
list 100 twice creates two distinct relationships with the same
`(list_id, contributor_id)` pair, both kept in the store. -/
theorem single_add_not_idempotent :
    ∃ r1 r2 : DbUserListContributor,
      (postUserListContributors ⟨[1, 1]⟩ 100 s1).1 = .ok [r1, r2] ∧
      r1.list_id = r2.list_id ∧ r1.contributor_id = r2.contributor_id ∧ r1.id < r2.id ∧
      r1 ∈ (postUserListContributors ⟨[1, 1]⟩ 100 s1).2.contribs ∧
      r2 ∈ (postUserListContributors ⟨[1, 1]⟩ 100 s1).2.contribs :=
  ⟨⟨0, 100, 1, 3⟩, ⟨1, 100, 1, 3⟩, rfl, rfl, rfl, Nat.zero_lt_one,
    List.mem_cons_self _ _, List.mem_cons_of_mem _ (List.mem_cons_self _ _)⟩

/-- C10: no sequence of mutating API requests changes the owner recorded for an
existing list id: if list `i` exists with owner `u` and still exists after the
sequence, its owner is still `u` (the update path writes only `name` and
`is_public`; fresh ids never collide with live ones in a well-formed store). -/
theorem owner_id_immutable (ops : List Op) (s : Store) (i u : Nat)
    (hwf : WF s) (h : ownerOf s i = some u)
    (h' : (ownerOf (applySeq ops s) i).isSome = true) :
    ownerOf (applySeq ops s) i = some u := by
  have hi : i < s.nextListId := by
    unfold ownerOf at h
    cases hf : s.lists.find? (fun l => l.id == i) with
    | none => rw [hf] at h; simp at h
    | some l =>
      have hmem := List.mem_of_find?_eq_some hf
      have hid : l.id = i := by simpa using List.find?_some hf
      exact hid ▸ hwf l hmem
  rcases applySeq_inv ops s i u hwf hi (Or.inl h) with hfin | hfin
  · exact hfin
  · rw [hfin] at h'
    simp at h'

/-- Witness for C10: after an owner update and a bulk contributor add, list 100
of `s1` is still owned by user 7. -/
theorem owner_id_immutable_witness :
    ownerOf (applySeq [Op.updateList ⟨"n", true, []⟩ 7 100, Op.addContribs ⟨[1]⟩ 100] s1) 100 =
      some 7 :=
  owner_id_immutable [Op.updateList ⟨"n", true, []⟩ 7 100, Op.addContribs ⟨[1]⟩ 100] s1 100 7
    (by unfold WF; decide) (by rfl) (by rfl)

end OpenSauced
